import Mathlib

/-!
Verification development for the `product-trends` server pipeline
(`src/server.js`, first server variant, whose line numbers the section
markers below refer to).

Modelling conventions (shallow embedding of the JavaScript source):
* JavaScript numbers are modelled as `ℚ`.  A possibly non-finite number
  (`NaN`, `±Infinity`) is modelled as `Option ℚ` (`JsNum`), with `none`
  standing for a non-finite value; every use site in the source treats
  `NaN` and `±Infinity` alike (both fail `> 0 && < 200`), so the model does
  not distinguish them.
* `x || y` on values is modelled by `jsOr*`: the fallback is taken when the
  first operand is absent (`undefined`), `0`, or the empty string — the JS
  falsy cases arising for the typed fields modelled here.
* `toFixed(n)` renders a decimal string; only its numeric value matters to
  the pipeline, modelled as rounding to `n` decimal places (`round2`,
  `round1`).  JS `toFixed` and `Math.round` break ties upward, matching
  Mathlib's `round = ⌊x + 1/2⌋`.
* `Math.random()` is modelled by an injected stream `ℕ → ℚ × ℚ × ℚ` of the
  three per-product draws, each assumed in `[0, 1)` where a bound matters.
-/

namespace ProductTrends

/-- A JavaScript number: `some q` is a finite value, `none` is non-finite
(`NaN` or `±Infinity`). -/
abbrev JsNum := Option ℚ

/-- JS `a || d` for a possibly-absent number `a`: falls back when `a` is
`undefined` or `0`. -/
def jsOrNum (a : Option ℚ) (d : ℚ) : ℚ :=
  match a with
  | some v => if v = 0 then d else v
  | none => d

/-- JS `a || d` for a possibly-absent integer count. -/
def jsOrInt (a : Option ℤ) (d : ℤ) : ℤ :=
  match a with
  | some v => if v = 0 then d else v
  | none => d

/-- JS `a || d` for a possibly-absent string: falls back when `a` is
`undefined` or the empty string. -/
def jsOrStr (a : Option String) (d : String) : String :=
  match a with
  | some s => if s = "" then d else s
  | none => d

/-- Numeric value of `toFixed(2)`: round to 2 decimal places, ties upward
(`Math.round` convention, which Mathlib's `round` shares). -/
def round2 (q : ℚ) : ℚ := ((round (q * 100) : ℤ) : ℚ) / 100

/-- Numeric value of `toFixed(1)`: round to 1 decimal place, ties upward. -/
def round1 (q : ℚ) : ℚ := ((round (q * 10) : ℤ) : ℚ) / 10

theorem abs_round2_sub_le (q : ℚ) : |round2 q - q| ≤ 1 / 200 := by
  have h := abs_sub_round (q * 100)
  rw [abs_sub_comm] at h
  have key : round2 q - q = ((round (q * 100) : ℚ) - q * 100) / 100 := by
    rw [round2]; ring
  rw [key, abs_div]
  rw [show |(100 : ℚ)| = 100 by norm_num]
  linarith

theorem abs_round1_sub_le (q : ℚ) : |round1 q - q| ≤ 1 / 20 := by
  have h := abs_sub_round (q * 10)
  rw [abs_sub_comm] at h
  have key : round1 q - q = ((round (q * 10) : ℚ) - q * 10) / 10 := by
    rw [round1]; ring
  rw [key, abs_div]
  rw [show |(10 : ℚ)| = 10 by norm_num]
  linarith

/-- Evaluation helper for `round` on concrete rationals. -/
theorem round_rat_eq (x : ℚ) (n : ℤ) (h1 : (n : ℚ) ≤ x + 1 / 2)
    (h2 : x + 1 / 2 < (n : ℚ) + 1) : round x = n := by
  rw [round_eq]
  exact Int.floor_eq_iff.mpr ⟨h1, h2⟩

/-! ### Margin Calculator — `calculateMargins`, src/server.js lines 86–107 -/

/-- The object returned by `calculateMargins`.  All monetary fields are the
numeric values of the `toFixed(2)` strings; `profitMargin` is the value of
`toFixed(1)`, and is `none` (non-finite: JS `-Infinity`) when the selling
price is `0`, because the source divides `profit / tiktokPrice`. -/
structure Margins where
  sellingPrice : ℚ
  supplierPrice : ℚ
  shippingCost : ℚ
  adCost : ℚ
  platformFees : ℚ
  totalCost : ℚ
  profit : ℚ
  profitMargin : Option ℚ
  deriving Repr, DecidableEq

def calculateMargins (tiktokPrice : ℚ) : Margins :=
  let supplierPrice := tiktokPrice * (3 / 10)
  let shippingCost : ℚ := 5
  let adCost := tiktokPrice * (1 / 4)
  let platformFees := tiktokPrice * (3 / 20)
  let totalCost := supplierPrice + shippingCost + adCost + platformFees
  let profit := tiktokPrice - totalCost
  { sellingPrice := tiktokPrice
    supplierPrice := round2 supplierPrice
    shippingCost := round2 shippingCost
    adCost := round2 adCost
    platformFees := round2 platformFees
    totalCost := round2 totalCost
    profit := round2 profit
    profitMargin :=
      if tiktokPrice = 0 then none
      else some (round1 (profit / tiktokPrice * 100)) }

/-! ### Sourcing catalog — `getSourcingRecommendations`, lines 110–134 -/

/-- UTF-8 bytes of a character (Lean `Char` carries a Unicode scalar
value, so no surrogate case arises). -/
def utf8Bytes (c : Char) : List ℕ :=
  let n := c.toNat
  if n < 128 then [n]
  else if n < 2048 then [192 + n / 64, 128 + n % 64]
  else if n < 65536 then [224 + n / 4096, 128 + (n / 64) % 64, 128 + n % 64]
  else [240 + n / 262144, 128 + (n / 4096) % 64, 128 + (n / 64) % 64, 128 + n % 64]

def hexDigit (n : ℕ) : Char :=
  if n < 10 then Char.ofNat (48 + n) else Char.ofNat (55 + n)

def percentByte (b : ℕ) : List Char :=
  [Char.ofNat 37, hexDigit (b / 16), hexDigit (b % 16)]

/-- Characters `encodeURIComponent` leaves unescaped:
`A–Z a–z 0–9 - _ . ! ~ * ' ( )`. -/
def uriUnreserved (c : Char) : Bool :=
  c.isAlpha || c.isDigit ||
    (c ∈ ['-', '_', '.', '!', '~', '*', Char.ofNat 39, '(', ')'])

def encodeURIComponent (s : String) : String :=
  String.mk ((s.data.map fun c =>
    if uriUnreserved c then [c]
    else ((utf8Bytes c).map percentByte).flatten).flatten)

structure SourcingOption where
  supplier : String
  url : String
  avgPrice : String
  shippingTime : String
  reliability : String
  deriving Repr, DecidableEq

def getSourcingRecommendations (productName : String) : List SourcingOption :=
  [ { supplier := "AliExpress"
      url := "https://www.aliexpress.com/wholesale?SearchText=" ++
        encodeURIComponent productName
      avgPrice := "Low"
      shippingTime := "15-30 days"
      reliability := "Medium" }
  , { supplier := "CJ Dropshipping"
      url := "https://cjdropshipping.com/search?keyword=" ++
        encodeURIComponent productName
      avgPrice := "Medium"
      shippingTime := "7-15 days"
      reliability := "High" }
  , { supplier := "Spocket"
      url := "https://www.spocket.co/search/" ++
        encodeURIComponent productName
      avgPrice := "High"
      shippingTime := "2-7 days"
      reliability := "High" } ]

/-! ### Upstream raw items (typed model of the schema-variable records) -/

/-- `item.statistics` sub-object. -/
structure Statistics where
  play_count : Option ℚ
  digg_count : Option ℚ
  deriving Repr, DecidableEq

/-- `item.rate_info` sub-object. -/
structure RateInfo where
  view_count : Option ℚ
  like_count : Option ℚ
  deriving Repr, DecidableEq

/-- `item.sold_info` sub-object; upstream sold counts are integers, on
which the source's `parseInt` is the identity. -/
structure SoldInfo where
  sold_count : Option ℤ
  sales : Option ℤ
  deriving Repr, DecidableEq

/-- `item.product_price_info` sub-object: price fields are formatted
strings, plus an optional currency code/symbol. -/
structure PriceInfo where
  sale_price_decimal : Option String
  sale_price_format : Option String
  min_price : Option String
  price : Option String
  currency_name : Option String
  currency_symbol : Option String
  deriving Repr, DecidableEq

/-- One raw upstream item, restricted to the fields the normalizer reads. -/
structure RawItem where
  product_name : Option String
  title : Option String
  product_img_url : Option String
  image : Option String
  cover : Option String
  statistics : Option Statistics
  rate_info : Option RateInfo
  sold_info : Option SoldInfo
  sold_count : Option ℤ
  sales : Option ℤ
  product_price_info : Option PriceInfo
  price : Option ℚ
  min_price : Option String
  deriving Repr, DecidableEq

/-- A raw item with every field absent (used to populate `rawData` in
concrete examples). -/
def emptyRawItem : RawItem :=
  { product_name := none, title := none, product_img_url := none
    image := none, cover := none, statistics := none, rate_info := none
    sold_info := none, sold_count := none, sales := none
    product_price_info := none, price := none, min_price := none }

/-! ### Price Normalizer — price extraction, lines 343–367 -/

/-- `priceStr.replace(/\./g, '')`. -/
def stripDots (s : String) : String :=
  String.mk (s.data.filter fun c => c ≠ '.')

/-- `priceStr.replace(/,/g, '')`. -/
def stripCommas (s : String) : String :=
  String.mk (s.data.filter fun c => c ≠ ',')

/-- `priceStr.replace(/[^0-9.]/g, '')`. -/
def stripNonNumeric (s : String) : String :=
  String.mk (s.data.filter fun c => c.isDigit || c = '.')

/-- JS whitespace accepted by `parseFloat` before the number. -/
def isWsChar (c : Char) : Bool :=
  c = ' ' || c = Char.ofNat 9 || c = Char.ofNat 10 || c = Char.ofNat 11 ||
    c = Char.ofNat 12 || c = Char.ofNat 13

def digitVal (c : Char) : ℕ := c.toNat - 48

def natOfDigits (l : List Char) : ℕ :=
  l.foldl (fun n c => 10 * n + digitVal c) 0

/-- JS `parseFloat`: skip leading whitespace, then read the longest prefix
of the form `[+-] digits [. digits] [(e|E) [+-] digits]`; `NaN` (here
`none`) if no digits are read.  A non-finite result (`"Infinity"` input)
is likewise `none`, per the `JsNum` convention. -/
def parseFloat (s : String) : JsNum :=
  let l0 := s.data.dropWhile isWsChar
  let sign : ℚ := match l0 with
    | c :: _ => if c = '-' then -1 else 1
    | [] => 1
  let l1 := match l0 with
    | c :: rest => if c = '-' || c = '+' then rest else l0
    | [] => l0
  let intD := l1.takeWhile Char.isDigit
  let l2 := l1.dropWhile Char.isDigit
  let fracD := match l2 with
    | c :: rest => if c = '.' then rest.takeWhile Char.isDigit else []
    | [] => []
  let l3 := match l2 with
    | c :: rest => if c = '.' then rest.dropWhile Char.isDigit else l2
    | [] => l2
  if intD = [] ∧ fracD = [] then none
  else
    let mantissa : ℚ :=
      (natOfDigits intD : ℚ) + (natOfDigits fracD : ℚ) / (10 ^ fracD.length)
    let expPart : ℤ := match l3 with
      | c :: rest =>
        if c = 'e' || c = 'E' then
          let esign : ℤ := match rest with
            | d :: _ => if d = '-' then -1 else 1
            | [] => 1
          let rest2 := match rest with
            | d :: r2 => if d = '-' || d = '+' then r2 else rest
            | [] => rest
          let eD := rest2.takeWhile Char.isDigit
          if eD = [] then 0 else esign * (natOfDigits eD : ℤ)
        else 0
      | [] => 0
    some (sign * mantissa * (10 : ℚ) ^ expPart)

/-- The `||`-chain selecting the price string from `product_price_info`
(default `'0'`). -/
def selectPriceStr (ppi : PriceInfo) : String :=
  jsOrStr ppi.sale_price_decimal
    (jsOrStr ppi.sale_price_format
      (jsOrStr ppi.min_price (jsOrStr ppi.price "0")))

/-- The currency-dispatched parse of the selected price string
(the body of the `if (item.product_price_info)` branch). -/
def branchParse (ppi : PriceInfo) : JsNum :=
  let priceStr := selectPriceStr ppi
  if ppi.currency_name = some "VND" then
    (parseFloat (stripDots priceStr)).map (fun q => q / 25000)
  else if ppi.currency_name = some "USD" ∨ ppi.currency_symbol = some "$" then
    parseFloat (stripCommas priceStr)
  else
    parseFloat (stripNonNumeric priceStr)

/-- Price extraction for one raw item (lines 343–367): nested price info
when present, else top-level `price / 100` (when truthy), else
`parseFloat(min_price)` (when truthy), else the initial `0`. -/
def extractPrice (item : RawItem) : JsNum :=
  match item.product_price_info with
  | some ppi => branchParse ppi
  | none =>
    match item.price with
    | some q =>
      if q = 0 then
        match item.min_price with
        | some s => if s = "" then some 0 else parseFloat s
        | none => some 0
      else some (q / 100)
    | none =>
      match item.min_price with
      | some s => if s = "" then some 0 else parseFloat s
      | none => some 0

/-! ### Record Normalizer — lines 377–389 -/

/-- The canonical normalized product record. -/
structure Product where
  title : String
  image : String
  views : ℚ
  likes : ℚ
  sold : ℤ
  price : JsNum
  engagement : ℚ
  category : String
  rawData : RawItem
  deriving Repr, DecidableEq

/-- Sold-count extraction: nested `sold_info` (via `parseInt`, identity on
the integer counts modelled here) before top-level fields. -/
def extractSold (item : RawItem) : ℤ :=
  match item.sold_info with
  | some si => jsOrInt si.sold_count (jsOrInt si.sales 0)
  | none => jsOrInt item.sold_count (jsOrInt item.sales 0)

/-- Engagement: `item.statistics?.play_count > 0 ?
((item.statistics?.digg_count || 0) / item.statistics?.play_count * 100)
.toFixed(2) : 0`.  Note it reads only the `statistics` sub-object. -/
def extractEngagement (item : RawItem) : ℚ :=
  match item.statistics with
  | some st =>
    match st.play_count with
    | some v =>
      if 0 < v then round2 (jsOrNum st.digg_count 0 / v * 100) else 0
    | none => 0
  | none => 0

/-- One raw item to one `Product` (the object literal at lines 377–389). -/
def normalizeItem (category : String) (item : RawItem) : Product :=
  { title := jsOrStr item.product_name (jsOrStr item.title "No title")
    image := jsOrStr item.product_img_url
      (jsOrStr item.image (jsOrStr item.cover ""))
    views := jsOrNum (item.statistics.bind Statistics.play_count)
      (jsOrNum (item.rate_info.bind RateInfo.view_count) 0)
    likes := jsOrNum (item.statistics.bind Statistics.digg_count)
      (jsOrNum (item.rate_info.bind RateInfo.like_count) 0)
    sold := extractSold item
    price := extractPrice item
    engagement := extractEngagement item
    category := category
    rawData := item }

/-! ### Candidate Selector — `validProducts`, lines 421–424 -/

/-- The filter `p.price > 0 && p.price < 200`; `false` on a non-finite
price (`NaN > 0` and `Infinity < 200` are both false in JS). -/
def priceInRange (x : JsNum) : Bool :=
  match x with
  | some q => decide (0 < q) && decide (q < 200)
  | none => false

/-- The ranking key `views + likes + sold`. -/
def popularity (p : Product) : ℚ := p.views + p.likes + (p.sold : ℚ)

/-- `Array.prototype.sort` with comparator `(b, a) => key b - key a`
(descending by `key`), modelled as a stable sort. -/
def sortByDesc {α β : Type} [LinearOrder β] (key : α → β) (l : List α) :
    List α :=
  l.insertionSort (fun a b => key b ≤ key a)

theorem sortByDesc_perm {α β : Type} [LinearOrder β] (key : α → β)
    (l : List α) : List.Perm (sortByDesc key l) l :=
  List.perm_insertionSort _ _

theorem sortByDesc_sorted {α β : Type} [LinearOrder β] (key : α → β)
    (l : List α) :
    List.Pairwise (fun a b => key b ≤ key a) (sortByDesc key l) := by
  haveI : IsTotal α (fun a b => key b ≤ key a) :=
    ⟨fun a b => (le_total (key b) (key a))⟩
  haveI : IsTrans α (fun a b => key b ≤ key a) :=
    ⟨fun _ _ _ h1 h2 => le_trans h2 h1⟩
  exact List.sorted_insertionSort _ l

/-- Filter to the price range, rank descending by popularity, truncate to
20 (lines 421–424). -/
def validProducts (allProducts : List Product) : List Product :=
  ((allProducts.filter fun p => priceInRange p.price)
    |> sortByDesc popularity).take 20

/-! ### Scoring Engine — `analyzeProductsWithAI`, lines 137–197 -/

/-- A candidate product carrying its margin breakdown and sourcing options
(lines 429–433).  `margins` is `none` exactly when the price is non-finite
(an all-`NaN` breakdown); products reaching this stage passed the price
filter, so it is always `some` in the pipeline. -/
structure MProduct extends Product where
  margins : Option Margins
  sourcing : List SourcingOption
  deriving Repr, DecidableEq

/-- Lines 429–433: attach `calculateMargins(p.price)` and
`getSourcingRecommendations(p.title)`. -/
def addAnalysis (p : Product) : MProduct :=
  { toProduct := p
    margins := p.price.map calculateMargins
    sourcing := getSourcingRecommendations p.title }

/-- One structured per-product assessment returned by the scoring
collaborator (`{"productIndex": …, "aiScore": …, …}`); fields other than
the index may be absent. -/
structure Assessment where
  productIndex : ℚ
  aiScore : Option ℚ
  trend : Option String
  competition : Option String
  recommendation : Option String
  deriving Repr, DecidableEq

structure ScoredProduct extends MProduct where
  aiScore : ℚ
  trend : String
  competition : String
  recommendation : String
  deriving Repr, DecidableEq

/-- `Math.floor(Math.random() * 30) + 70` for a draw `t`. -/
def heuristicScore (t : ℚ) : ℚ := ((⌊t * 30⌋ : ℤ) : ℚ) + 70

/-- The no-collaborator fallback (lines 141–147): per product, three
pseudo-random draws give the score, the binary trend and the binary
competition. -/
def fallbackNoAI (r : ℕ → ℚ × ℚ × ℚ) : List MProduct → ℕ → List ScoredProduct
  | [], _ => []
  | p :: ps, i =>
    { toMProduct := p
      aiScore := heuristicScore (r i).1
      trend := if (r i).2.1 > 1 / 2 then "Rising" else "Stable"
      competition := if (r i).2.2 > 1 / 2 then "Medium" else "High"
      recommendation := "Analyze manually for best results" }
      :: fallbackNoAI r ps (i + 1)

/-- The catch-block fallback (lines 189–195): random score, constant
`trend: 'Unknown'` and `competition: 'Medium'`. -/
def fallbackError (r : ℕ → ℚ × ℚ × ℚ) :
    List MProduct → ℕ → List ScoredProduct
  | [], _ => []
  | p :: ps, i =>
    { toMProduct := p
      aiScore := heuristicScore (r i).1
      trend := "Unknown"
      competition := "Medium"
      recommendation := "Manual analysis recommended" }
      :: fallbackError r ps (i + 1)

/-- Merge of one product at 0-based index `i` (lines 176–185):
`analysisArray.find(a => a.productIndex === i + 1) || {}`, then each field
defaulted through `||`. -/
def mergeOne (analysisArray : List Assessment) (i : ℕ) (p : MProduct) :
    ScoredProduct :=
  match analysisArray.find? (fun a => a.productIndex = (i : ℚ) + 1) with
  | some a =>
    { toMProduct := p
      aiScore := jsOrNum a.aiScore 75
      trend := jsOrStr a.trend "Stable"
      competition := jsOrStr a.competition "Medium"
      recommendation := jsOrStr a.recommendation
        "Good potential for dropshipping" }
  | none =>
    { toMProduct := p
      aiScore := 75
      trend := "Stable"
      competition := "Medium"
      recommendation := "Good potential for dropshipping" }

/-- `products.map((p, i) => …)` over the whole batch, merging by 1-based
position index. -/
def mergeAssessments (analysisArray : List Assessment) :
    List MProduct → ℕ → List ScoredProduct
  | [], _ => []
  | p :: ps, i =>
    mergeOne analysisArray i p :: mergeAssessments analysisArray ps (i + 1)

/-- The three ways one call to `analyzeProductsWithAI` can resolve: no
collaborator configured, collaborator answered with a parsed assessment
array, or the assisted path threw (timeout, transport, JSON parse, …). -/
inductive ScoreOutcome where
  | noCollab (r : ℕ → ℚ × ℚ × ℚ)
  | assisted (analysisArray : List Assessment)
  | assistedFailed (r : ℕ → ℚ × ℚ × ℚ)

/-- `analyzeProductsWithAI` (lines 137–197) as a function of its resolved
outcome. -/
def analyzeProductsWithAI (products : List MProduct) :
    ScoreOutcome → List ScoredProduct
  | .noCollab r => fallbackNoAI r products 0
  | .assisted analysisArray => mergeAssessments analysisArray products 0
  | .assistedFailed r => fallbackError r products 0

/-- Well-formedness of the environment on each outcome: random draws lie
in `[0, 1)`, and every numeric score the collaborator returns lies in
`[0, 100]`. -/
def OutcomeOK : ScoreOutcome → Prop
  | .noCollab r => ∀ i, 0 ≤ (r i).1 ∧ (r i).1 < 1
  | .assisted analysisArray =>
      ∀ a ∈ analysisArray, ∀ q : ℚ, a.aiScore = some q → 0 ≤ q ∧ q ≤ 100
  | .assistedFailed r => ∀ i, 0 ≤ (r i).1 ∧ (r i).1 < 1

/-! ### Niche Aggregator — `trendingNiches`, lines 442–460 -/

/-- Accumulator entry in the `niches` object: `avgScore` is still the
running score sum at this stage (named `scoreSum` here for clarity). -/
structure NicheAcc where
  category : String
  count : ℕ
  scoreSum : ℚ
  totalSales : ℤ
  deriving Repr, DecidableEq

/-- One emitted niche summary after the averaging `map`. -/
structure Niche where
  category : String
  count : ℕ
  avgScore : ℤ
  totalSales : ℤ
  deriving Repr, DecidableEq

/-- The `count++ / avgScore += aiScore / totalSales += sold || 0` update
applied to the entry matching the product's category. -/
def bumpAcc (p : ScoredProduct) (n : NicheAcc) : NicheAcc :=
  if n.category = p.category then
    { category := n.category
      count := n.count + 1
      scoreSum := n.scoreSum + p.aiScore
      totalSales := n.totalSales + (if p.sold = 0 then 0 else p.sold) }
  else n

/-- The fresh `{category, count: 0, avgScore: 0, totalSales: 0}` entry. -/
def emptyNicheFor (c : String) : NicheAcc :=
  { category := c
    count := 0
    scoreSum := 0
    totalSales := 0 }

/-- `if (!niches[p.category]) niches[p.category] = {…, count: 0, …}`:
insert a zero entry for the category if absent (new object keys are
appended in insertion order). -/
def ensureNiche (accs : List NicheAcc) (c : String) : List NicheAcc :=
  if accs.any fun n => n.category = c then accs
  else accs ++ [emptyNicheFor c]

/-- One iteration of the `forEach` at lines 443–455. -/
def bumpNiche (accs : List NicheAcc) (p : ScoredProduct) : List NicheAcc :=
  (ensureNiche accs p.category).map (bumpAcc p)

/-- The accumulated `niches` object, as its ordered value list. -/
def nichesOf (ps : List ScoredProduct) : List NicheAcc :=
  ps.foldl bumpNiche []

/-- `avgScore: Math.round(n.avgScore / n.count)` (lines 457–459). -/
def finalizeNiche (n : NicheAcc) : Niche :=
  { category := n.category
    count := n.count
    avgScore := round (n.scoreSum / (n.count : ℚ))
    totalSales := n.totalSales }

/-- `trendingNiches` (lines 442–460): accumulate, average, sort descending
by rounded average score. -/
def trendingNiches (ps : List ScoredProduct) : List Niche :=
  sortByDesc Niche.avgScore ((nichesOf ps).map finalizeNiche)

/-! ### Recommendations entry point — lines 311–474 -/

/-- The JSON body sent back by `/api/recommendations`: either
`{success: false, error}` or `{success: true, products, niches,
totalProducts}` (the timestamp carries no pipeline content). -/
inductive RecResult where
  | failure (error : String)
  | success (products : List ScoredProduct) (niches : List Niche)
      (totalProducts : ℕ)
  deriving Repr, DecidableEq

/-- The pipeline from the pooled, normalized, English-filtered product
list onward (lines 402–468), parameterised by the scoring outcome. -/
def recommendations (allProducts : List Product) (o : ScoreOutcome) :
    RecResult :=
  if allProducts.length = 0 then
    .failure "No products found. Try again or check your API key."
  else
    let valid := validProducts allProducts
    let productsWithAnalysis := valid.map addAnalysis
    let analyzedProducts := analyzeProductsWithAI productsWithAnalysis o
    let sortedProducts := sortByDesc ScoredProduct.aiScore analyzedProducts
    .success sortedProducts (trendingNiches sortedProducts)
      sortedProducts.length

/-! ### Analyze-product entry point — lines 477–497 -/

/-- The request's `product` field: a title and a possibly-absent price
(`none` covers an `undefined` or non-finite price, both falsy in the
source's truthiness test). -/
structure ProductIn where
  title : String
  price : Option ℚ
  deriving Repr, DecidableEq

/-- The JSON body sent back by `/api/analyze-product`. -/
inductive AnalyzeResult where
  | failure (error : String)
  | success (margins : Margins) (sourcing : List SourcingOption)
  deriving Repr, DecidableEq

/-- `/api/analyze-product` (lines 477–497): reject when `!product ||
!product.price`, else margins plus sourcing. -/
def analyzeProduct (product : Option ProductIn) : AnalyzeResult :=
  match product with
  | none => .failure "Invalid product data"
  | some pr =>
    match pr.price with
    | none => .failure "Invalid product data"
    | some q =>
      if q = 0 then .failure "Invalid product data"
      else .success (calculateMargins q) (getSourcingRecommendations pr.title)

/-! ## Claim theorems -/

/-- A demonstration pooled product used to instantiate the universally
quantified claim theorems at a concrete input. -/
def demoProduct : Product :=
  { title := "Best Gadget 2024"
    image := ""
    views := 1000
    likes := 50
    sold := 20
    price := some 10
    engagement := 5
    category := "viral gadgets"
    rawData := emptyRawItem }

/-- C1: the Candidate Selector (`validProducts`) applied to any pooled
product list yields only items with `0 < price < 200`, at most 20 items,
and a list sorted descending by `views + likes + sold`. -/
theorem candidate_selector_correct (ps : List Product) :
    (∀ p ∈ validProducts ps, ∃ q : ℚ, p.price = some q ∧ 0 < q ∧ q < 200)
    ∧ (validProducts ps).length ≤ 20
    ∧ List.Pairwise (fun a b => popularity b ≤ popularity a)
        (validProducts ps) := by
  refine ⟨?_, ?_, ?_⟩
  · intro p hp
    have hmem : p ∈ sortByDesc popularity
        (ps.filter fun p => priceInRange p.price) :=
      List.take_subset _ _ hp
    have hmem2 : p ∈ ps.filter fun p => priceInRange p.price :=
      (sortByDesc_perm _ _).mem_iff.mp hmem
    have hpr : priceInRange p.price = true := (List.mem_filter.mp hmem2).2
    match hx : p.price with
    | none => rw [hx] at hpr; simp [priceInRange] at hpr
    | some q =>
      rw [hx] at hpr
      simp only [priceInRange, Bool.and_eq_true, decide_eq_true_eq] at hpr
      exact ⟨q, rfl, hpr.1, hpr.2⟩
  · rw [validProducts, List.length_take]
    exact min_le_left _ _
  · exact (sortByDesc_sorted popularity _).sublist (List.take_sublist _ _)

/-- C1 witness: the selector guarantees instantiated on a concrete pooled
list. -/
theorem candidate_selector_correct_witness :
    (∀ p ∈ validProducts [demoProduct],
      ∃ q : ℚ, p.price = some q ∧ 0 < q ∧ q < 200)
    ∧ (validProducts [demoProduct]).length ≤ 20
    ∧ List.Pairwise (fun a b => popularity b ≤ popularity a)
        (validProducts [demoProduct]) :=
  candidate_selector_correct [demoProduct]

/-- C2 counterexample: at price `0` the source computes
`profitMargin = (profit / 0) * 100`, a non-finite value (JS `-Infinity`,
modelled `none`), so the claimed numeric equality fails at `p = 0`. -/
theorem calculateMargins_zero_price_margin_not_finite :
    (calculateMargins 0).profitMargin = none := by
  simp [calculateMargins]

/-- C2 (amended to `p > 0` for the `profitMargin` clause): for `p ≥ 0`
every monetary output of `calculateMargins` is within half a cent of its
exact formula value, the exact identities `totalCost = supplierPrice +
shippingCost + adCost + platformFees` and `profit = p - totalCost` hold
within that tolerance, for `p > 0` the profit margin is within `0.05` of
`profit / p * 100`, and `calculateMargins(100).profitMargin = 25.0`. -/
theorem calculateMargins_correct (p : ℚ) (hp : 0 ≤ p) :
    (calculateMargins p).sellingPrice = p
    ∧ |(calculateMargins p).supplierPrice - p * (3 / 10)| ≤ 1 / 200
    ∧ (calculateMargins p).shippingCost = 5
    ∧ |(calculateMargins p).adCost - p * (1 / 4)| ≤ 1 / 200
    ∧ |(calculateMargins p).platformFees - p * (3 / 20)| ≤ 1 / 200
    ∧ |(calculateMargins p).totalCost -
        (p * (3 / 10) + 5 + p * (1 / 4) + p * (3 / 20))| ≤ 1 / 200
    ∧ |(calculateMargins p).profit -
        (p - (p * (3 / 10) + 5 + p * (1 / 4) + p * (3 / 20)))| ≤ 1 / 200
    ∧ (0 < p → ∃ mq : ℚ, (calculateMargins p).profitMargin = some mq ∧
        |mq - (p - (p * (3 / 10) + 5 + p * (1 / 4) + p * (3 / 20))) / p * 100|
          ≤ 1 / 20)
    ∧ (calculateMargins 100).profitMargin = some 25 := by
  refine ⟨rfl, abs_round2_sub_le _, ?_, abs_round2_sub_le _,
    abs_round2_sub_le _, abs_round2_sub_le _, abs_round2_sub_le _, ?_, ?_⟩
  · show round2 5 = 5
    rw [round2, round_rat_eq ((5 : ℚ) * 100) 500 (by norm_num) (by norm_num)]
    norm_num
  · intro hpos
    refine ⟨round1 ((p - (p * (3 / 10) + 5 + p * (1 / 4) + p * (3 / 20))) / p
      * 100), ?_, abs_round1_sub_le _⟩
    show (if p = 0 then none else some _) = some _
    rw [if_neg (ne_of_gt hpos)]
  · show (if (100 : ℚ) = 0 then none else some (round1 _)) = some 25
    rw [if_neg (by norm_num : (100 : ℚ) ≠ 0), round1,
      round_rat_eq _ 250 (by norm_num) (by norm_num)]
    norm_num

/-- C2 witness: the amended margin contract instantiated at price 100,
where the stated margin value `25.0` is attained. -/
theorem calculateMargins_correct_witness :
    (0 : ℚ) ≤ 100 ∧
    ((calculateMargins 100).sellingPrice = 100
    ∧ |(calculateMargins 100).supplierPrice - 100 * (3 / 10)| ≤ 1 / 200
    ∧ (calculateMargins 100).shippingCost = 5
    ∧ |(calculateMargins 100).adCost - 100 * (1 / 4)| ≤ 1 / 200
    ∧ |(calculateMargins 100).platformFees - 100 * (3 / 20)| ≤ 1 / 200
    ∧ |(calculateMargins 100).totalCost -
        (100 * (3 / 10) + 5 + 100 * (1 / 4) + 100 * (3 / 20))| ≤ 1 / 200
    ∧ |(calculateMargins 100).profit -
        (100 - (100 * (3 / 10) + 5 + 100 * (1 / 4) + 100 * (3 / 20)))|
          ≤ 1 / 200
    ∧ ((0 : ℚ) < 100 → ∃ mq : ℚ,
        (calculateMargins 100).profitMargin = some mq ∧
        |mq - (100 - (100 * (3 / 10) + 5 + 100 * (1 / 4) + 100 * (3 / 20)))
          / 100 * 100| ≤ 1 / 20)
    ∧ (calculateMargins 100).profitMargin = some 25) :=
  ⟨by norm_num, calculateMargins_correct 100 (by norm_num)⟩

/-- C10: the analyze-product entry point rejects an absent product or a
falsy price with `"Invalid product data"`, and for every truthy price
returns success with exactly `calculateMargins(price)` and the sourcing
catalog for the product's title. -/
theorem analyzeProduct_correct (product : Option ProductIn) :
    (product = none →
      analyzeProduct product = .failure "Invalid product data")
    ∧ (∀ pr : ProductIn, product = some pr → pr.price = none →
      analyzeProduct product = .failure "Invalid product data")
    ∧ (∀ pr : ProductIn, product = some pr → pr.price = some 0 →
      analyzeProduct product = .failure "Invalid product data")
    ∧ (∀ (pr : ProductIn) (q : ℚ), product = some pr → pr.price = some q →
      q ≠ 0 → analyzeProduct product =
        .success (calculateMargins q)
          (getSourcingRecommendations pr.title)) := by
  refine ⟨?_, ?_, ?_, ?_⟩
  · rintro rfl; rfl
  · rintro pr rfl hpr
    simp [analyzeProduct, hpr]
  · rintro pr rfl hpr
    simp [analyzeProduct, hpr]
  · rintro pr q rfl hpr hq
    simp [analyzeProduct, hpr, hq]

/-- C10 witness: a concrete valid request succeeds with exactly the
margins and the sourcing catalog. -/
theorem analyzeProduct_correct_witness :
    analyzeProduct (some { title := "Widget", price := some 50 }) =
      .success (calculateMargins 50) (getSourcingRecommendations "Widget") :=
  (analyzeProduct_correct (some { title := "Widget", price := some 50 })).2.2.2
    { title := "Widget", price := some 50 } 50 rfl rfl (by norm_num)

/-- The C6 price container: `sale_price_format` `"$12,99"` with currency
symbol `"$"`. -/
def usdPriceInfo : PriceInfo :=
  { sale_price_decimal := none
    sale_price_format := some "$12,99"
    min_price := none
    price := none
    currency_name := none
    currency_symbol := some "$" }

def usdItem : RawItem :=
  { emptyRawItem with product_price_info := some usdPriceInfo }

/-- C6 counterexample: for `{sale_price_format: "$12,99",
currency_symbol: "$"}` comma-stripping leaves `"$1299"`, whose
`parseFloat` is `NaN` (modelled `none`) — the extracted price is not `0`
as claimed. -/
theorem price_normalizer_unparseable_cx :
    extractPrice usdItem ≠ some 0 ∧ extractPrice usdItem = none := by
  have h : extractPrice usdItem = none := by rfl
  exact ⟨by rw [h]; simp, h⟩

/-- C6 (amended): an upstream price container whose selected price string
fails to parse after the applicable stripping rule yields `NaN` (a
non-finite number, modelled `none`) rather than `0`; the normalizer never
raises an error, and the Candidate Selector's price filter excludes every
such product. -/
theorem price_normalizer_unparseable (item : RawItem) (ppi : PriceInfo)
    (hinfo : item.product_price_info = some ppi)
    (hparse : branchParse ppi = none) :
    extractPrice item = none ∧ priceInRange (extractPrice item) = false := by
  have h : extractPrice item = none := by
    simp only [extractPrice, hinfo, hparse]
  exact ⟨h, by rw [h]; rfl⟩

/-- C6 witness: the amended statement applied to the `"$12,99"` container
itself. -/
theorem price_normalizer_unparseable_witness :
    extractPrice usdItem = none ∧
    priceInRange (extractPrice usdItem) = false :=
  price_normalizer_unparseable usdItem usdPriceInfo rfl (by rfl)

/-- The C7 item: engagement data only in `rate_info`, no `statistics`. -/
def rateOnlyItem : RawItem :=
  { emptyRawItem with
      rate_info := some { view_count := some 100, like_count := some 50 } }

/-- C7 counterexample: an item whose views/likes come from the `rate_info`
fallback (views 100, likes 50) normalizes to positive views but engagement
`0`, not `likes / views * 100` rounded — the source computes engagement
only from `statistics`. -/
theorem engagement_rate_info_cx :
    0 < (normalizeItem "pet supplies" rateOnlyItem).views ∧
    (normalizeItem "pet supplies" rateOnlyItem).engagement ≠
      round2 ((normalizeItem "pet supplies" rateOnlyItem).likes /
        (normalizeItem "pet supplies" rateOnlyItem).views * 100) := by
  have hv : (normalizeItem "pet supplies" rateOnlyItem).views = 100 := by
    simp [normalizeItem, rateOnlyItem, emptyRawItem, jsOrNum]
  have hl : (normalizeItem "pet supplies" rateOnlyItem).likes = 50 := by
    simp [normalizeItem, rateOnlyItem, emptyRawItem, jsOrNum]
  have he : (normalizeItem "pet supplies" rateOnlyItem).engagement = 0 := by
    simp [normalizeItem, extractEngagement, rateOnlyItem, emptyRawItem]
  refine ⟨by rw [hv]; norm_num, ?_⟩
  rw [hv, hl, he]
  rw [show (50 : ℚ) / 100 * 100 = 50 by norm_num, round2,
    round_rat_eq ((50 : ℚ) * 100) 5000 (by norm_num) (by norm_num)]
  norm_num

/-- C7 (amended): engagement is computed solely from the `statistics`
sub-object — when `statistics.play_count` is positive it equals
`(statistics.digg_count || 0) / play_count * 100` rounded to 2 decimals
(which coincides with `likes / views * 100` whenever likes and views are
themselves sourced from `statistics`, i.e. `digg_count` is present and
nonzero), and it equals `0` whenever `statistics.play_count` is absent or
not positive, even if the product's `views` field is positive via the
`rate_info` fallback; no division by zero is ever performed. -/
theorem engagement_correct (category : String) (item : RawItem) :
    (∀ (st : Statistics) (v : ℚ), item.statistics = some st →
      st.play_count = some v → 0 < v →
      (normalizeItem category item).engagement =
        round2 (jsOrNum st.digg_count 0 / v * 100))
    ∧ (∀ (st : Statistics) (v l : ℚ), item.statistics = some st →
      st.play_count = some v → 0 < v → st.digg_count = some l → l ≠ 0 →
      (normalizeItem category item).engagement =
        round2 ((normalizeItem category item).likes /
          (normalizeItem category item).views * 100))
    ∧ (item.statistics = none →
      (normalizeItem category item).engagement = 0)
    ∧ (∀ st : Statistics, item.statistics = some st → st.play_count = none →
      (normalizeItem category item).engagement = 0)
    ∧ (∀ (st : Statistics) (v : ℚ), item.statistics = some st →
      st.play_count = some v → ¬ 0 < v →
      (normalizeItem category item).engagement = 0) := by
  refine ⟨?_, ?_, ?_, ?_, ?_⟩
  · intro st v hst hv hpos
    simp [normalizeItem, extractEngagement, hst, hv, hpos]
  · intro st v l hst hv hpos hl hlne
    have hviews : (normalizeItem category item).views = v := by
      simp [normalizeItem, hst, hv, jsOrNum, ne_of_gt hpos]
    have hlikes : (normalizeItem category item).likes = l := by
      simp [normalizeItem, hst, hl, jsOrNum, hlne]
    rw [hviews, hlikes]
    simp [normalizeItem, extractEngagement, hst, hv, hpos, hl, jsOrNum, hlne]
  · intro hst
    simp [normalizeItem, extractEngagement, hst]
  · intro st hst hv
    simp [normalizeItem, extractEngagement, hst, hv]
  · intro st v hst hv hpos
    simp [normalizeItem, extractEngagement, hst, hv, hpos]

/-- C7 witness: a concrete item with `statistics` present (200 plays, 10
likes) gets engagement `round2(10 / 200 * 100)`. -/
theorem engagement_correct_witness :
    (normalizeItem "makeup"
      { emptyRawItem with
          statistics := some { play_count := some 200, digg_count := some 10 }
      }).engagement =
      round2 (jsOrNum (some 10) 0 / 200 * 100) :=
  (engagement_correct "makeup"
    { emptyRawItem with
        statistics := some { play_count := some 200, digg_count := some 10 }
    }).1 { play_count := some 200, digg_count := some 10 } 200 rfl rfl
    (by norm_num)

/-! ### Scoring-engine lemmas -/

theorem heuristicScore_bounds (t : ℚ) (h0 : 0 ≤ t) (h1 : t < 1) :
    70 ≤ heuristicScore t ∧ heuristicScore t ≤ 100 := by
  have hf0 : (0 : ℤ) ≤ ⌊t * 30⌋ := Int.floor_nonneg.mpr (by nlinarith)
  have hf1 : ⌊t * 30⌋ < 30 := Int.floor_lt.mpr (by push_cast; nlinarith)
  constructor
  · rw [heuristicScore]
    have : (0 : ℚ) ≤ ((⌊t * 30⌋ : ℤ) : ℚ) := by exact_mod_cast hf0
    linarith
  · rw [heuristicScore]
    have : ((⌊t * 30⌋ : ℤ) : ℚ) ≤ 29 := by exact_mod_cast Int.lt_add_one_iff.mp hf1
    linarith

theorem fallbackNoAI_mem (r : ℕ → ℚ × ℚ × ℚ)
    (hr : ∀ i, 0 ≤ (r i).1 ∧ (r i).1 < 1) :
    ∀ (ps : List MProduct) (i : ℕ), ∀ sp ∈ fallbackNoAI r ps i,
      70 ≤ sp.aiScore ∧ sp.aiScore ≤ 100
      ∧ (sp.trend = "Rising" ∨ sp.trend = "Stable")
      ∧ (sp.competition = "Medium" ∨ sp.competition = "High")
      ∧ sp.recommendation = "Analyze manually for best results" := by
  intro ps
  induction ps with
  | nil => intro i sp hsp; simp [fallbackNoAI] at hsp
  | cons p ps ih =>
    intro i sp hsp
    rw [fallbackNoAI] at hsp
    rcases List.mem_cons.mp hsp with h | h
    · subst h
      refine ⟨(heuristicScore_bounds _ (hr i).1 (hr i).2).1,
        (heuristicScore_bounds _ (hr i).1 (hr i).2).2, ?_, ?_, rfl⟩
      · by_cases hb : (r i).2.1 > 1 / 2
        · exact Or.inl (by rw [if_pos hb])
        · exact Or.inr (by rw [if_neg hb])
      · by_cases hb : (r i).2.2 > 1 / 2
        · exact Or.inl (by rw [if_pos hb])
        · exact Or.inr (by rw [if_neg hb])
    · exact ih (i + 1) sp h

theorem fallbackError_mem (r : ℕ → ℚ × ℚ × ℚ)
    (hr : ∀ i, 0 ≤ (r i).1 ∧ (r i).1 < 1) :
    ∀ (ps : List MProduct) (i : ℕ), ∀ sp ∈ fallbackError r ps i,
      70 ≤ sp.aiScore ∧ sp.aiScore ≤ 100
      ∧ sp.trend = "Unknown" ∧ sp.competition = "Medium"
      ∧ sp.recommendation = "Manual analysis recommended" := by
  intro ps
  induction ps with
  | nil => intro i sp hsp; simp [fallbackError] at hsp
  | cons p ps ih =>
    intro i sp hsp
    rw [fallbackError] at hsp
    rcases List.mem_cons.mp hsp with h | h
    · subst h
      exact ⟨(heuristicScore_bounds _ (hr i).1 (hr i).2).1,
        (heuristicScore_bounds _ (hr i).1 (hr i).2).2, rfl, rfl, rfl⟩
    · exact ih (i + 1) sp h

theorem mergeOne_aiScore_bounds (analysisArray : List Assessment)
    (h : ∀ a ∈ analysisArray, ∀ q : ℚ, a.aiScore = some q →
      0 ≤ q ∧ q ≤ 100) (i : ℕ) (p : MProduct) :
    0 ≤ (mergeOne analysisArray i p).aiScore
    ∧ (mergeOne analysisArray i p).aiScore ≤ 100 := by
  rw [mergeOne]
  cases hfind : analysisArray.find? fun a => a.productIndex = (i : ℚ) + 1 with
  | none => norm_num
  | some a =>
    have ha : a ∈ analysisArray := List.mem_of_find?_eq_some hfind
    show 0 ≤ jsOrNum a.aiScore 75 ∧ jsOrNum a.aiScore 75 ≤ 100
    cases hsc : a.aiScore with
    | none => norm_num [jsOrNum]
    | some q =>
      by_cases hq : q = 0
      · norm_num [jsOrNum, hq]
      · have hb := h a ha q hsc
        simp only [jsOrNum, hq, if_false]
        exact hb

theorem mergeAssessments_mem (analysisArray : List Assessment)
    (h : ∀ a ∈ analysisArray, ∀ q : ℚ, a.aiScore = some q →
      0 ≤ q ∧ q ≤ 100) :
    ∀ (ps : List MProduct) (i : ℕ), ∀ sp ∈ mergeAssessments analysisArray ps i,
      0 ≤ sp.aiScore ∧ sp.aiScore ≤ 100 := by
  intro ps
  induction ps with
  | nil => intro i sp hsp; simp [mergeAssessments] at hsp
  | cons p ps ih =>
    intro i sp hsp
    rw [mergeAssessments] at hsp
    rcases List.mem_cons.mp hsp with hh | hh
    · subst hh
      exact mergeOne_aiScore_bounds analysisArray h i p
    · exact ih (i + 1) sp hh

/-- A demonstration candidate used to instantiate the scoring claims. -/
def demoMProduct : MProduct := addAnalysis demoProduct

/-- An out-of-range assessment the scoring collaborator could return for
the first product. -/
def badAssessment : Assessment :=
  { productIndex := 1
    aiScore := some 150
    trend := some "Rising"
    competition := some "Low"
    recommendation := some "Push hard" }

/-- C3 counterexample: a collaborator assessment with `aiScore: 150` for
position 1 is merged unclamped (`aiData.aiScore || 75`), producing a
`ScoredProduct` with `aiScore = 150 ∉ [0, 100]`. -/
theorem aiScore_range_cx :
    ¬ (∀ sp ∈ analyzeProductsWithAI [demoMProduct]
        (.assisted [badAssessment]),
      0 ≤ sp.aiScore ∧ sp.aiScore ≤ 100) := by
  intro h
  have hm : mergeOne [badAssessment] 0 demoMProduct ∈
      analyzeProductsWithAI [demoMProduct] (.assisted [badAssessment]) :=
    List.mem_singleton_self _
  have hb := (h _ hm).2
  have hfind : ([badAssessment].find? fun a =>
      a.productIndex = ((0 : ℕ) : ℚ) + 1) = some badAssessment :=
    List.find?_cons_of_pos _ (by norm_num [badAssessment])
  rw [mergeOne, hfind] at hb
  norm_num [jsOrNum, badAssessment] at hb

/-- C3 (amended): every `ScoredProduct` has `aiScore ∈ [0, 100]` on the
fallback paths unconditionally, and on the assisted path provided every
numeric score the collaborator returns lies in `[0, 100]` — the merge does
not clamp out-of-range collaborator scores. -/
theorem aiScore_in_range (ps : List MProduct) (o : ScoreOutcome)
    (h : OutcomeOK o) :
    ∀ sp ∈ analyzeProductsWithAI ps o,
      0 ≤ sp.aiScore ∧ sp.aiScore ≤ 100 := by
  intro sp hsp
  cases o with
  | noCollab r =>
    have := fallbackNoAI_mem r h ps 0 sp hsp
    exact ⟨by linarith [this.1], this.2.1⟩
  | assisted analysisArray =>
    exact mergeAssessments_mem analysisArray h ps 0 sp hsp
  | assistedFailed r =>
    have := fallbackError_mem r h ps 0 sp hsp
    exact ⟨by linarith [this.1], this.2.1⟩

/-- A well-behaved assessment with an in-range score. -/
def okAssessment : Assessment :=
  { productIndex := 1
    aiScore := some 80
    trend := none
    competition := none
    recommendation := none }

/-- C3 witness: the bound instantiated for the assisted path with an
in-range assessment list, at the single merged product. -/
theorem aiScore_in_range_witness :
    0 ≤ (mergeOne [okAssessment] 0 demoMProduct).aiScore ∧
      (mergeOne [okAssessment] 0 demoMProduct).aiScore ≤ 100 :=
  aiScore_in_range [demoMProduct] (.assisted [okAssessment]) (by
    intro a ha q hq
    simp only [List.mem_singleton] at ha
    subst ha
    simp only [okAssessment, Option.some.injEq] at hq
    subst hq
    norm_num)
    (mergeOne [okAssessment] 0 demoMProduct) (List.mem_singleton_self _)

/-- The scored product the error fallback produces for `demoMProduct`
under constant zero draws. -/
def failedScoredDemo : ScoredProduct :=
  { toMProduct := demoMProduct
    aiScore := heuristicScore 0
    trend := "Unknown"
    competition := "Medium"
    recommendation := "Manual analysis recommended" }

/-- C4 counterexample: when the assisted path fails (here with constant
random draws `0`), the catch block assigns `trend: 'Unknown'`, which is
neither `Rising` nor `Stable` — the two fallbacks do not share the claimed
label sets. -/
theorem heuristic_fallback_cx :
    ¬ (∀ sp ∈ analyzeProductsWithAI [demoMProduct]
        (.assistedFailed fun _ => (0, 0, 0)),
      sp.trend = "Rising" ∨ sp.trend = "Stable") := by
  intro h
  have hm : failedScoredDemo ∈
      analyzeProductsWithAI [demoMProduct]
        (.assistedFailed fun _ => (0, 0, 0)) :=
    List.mem_singleton_self _
  rcases h _ hm with hc | hc <;> simp [failedScoredDemo] at hc

/-- C4 (amended): with random draws in `[0, 1)`, the no-collaborator
fallback assigns `aiScore ∈ [70, 100]`, a trend in `{Rising, Stable}`, a
competition in `{Medium, High}` and the static recommendation; the
failure fallback likewise assigns `aiScore ∈ [70, 100]` and a static
recommendation, but a constant `trend = Unknown` and
`competition = Medium`. -/
theorem heuristic_fallback_correct (ps : List MProduct)
    (r : ℕ → ℚ × ℚ × ℚ) (hr : ∀ i, 0 ≤ (r i).1 ∧ (r i).1 < 1) :
    (∀ sp ∈ analyzeProductsWithAI ps (.noCollab r),
      70 ≤ sp.aiScore ∧ sp.aiScore ≤ 100
      ∧ (sp.trend = "Rising" ∨ sp.trend = "Stable")
      ∧ (sp.competition = "Medium" ∨ sp.competition = "High")
      ∧ sp.recommendation = "Analyze manually for best results")
    ∧ (∀ sp ∈ analyzeProductsWithAI ps (.assistedFailed r),
      70 ≤ sp.aiScore ∧ sp.aiScore ≤ 100
      ∧ sp.trend = "Unknown" ∧ sp.competition = "Medium"
      ∧ sp.recommendation = "Manual analysis recommended") :=
  ⟨fallbackNoAI_mem r hr ps 0, fallbackError_mem r hr ps 0⟩

/-- C4 witness: the fallback contract instantiated on a concrete product
with the constant draw `1/2`. -/
theorem heuristic_fallback_correct_witness :
    (∀ sp ∈ analyzeProductsWithAI [demoMProduct]
        (.noCollab fun _ => (1 / 2, 1 / 2, 1 / 2)),
      70 ≤ sp.aiScore ∧ sp.aiScore ≤ 100
      ∧ (sp.trend = "Rising" ∨ sp.trend = "Stable")
      ∧ (sp.competition = "Medium" ∨ sp.competition = "High")
      ∧ sp.recommendation = "Analyze manually for best results")
    ∧ (∀ sp ∈ analyzeProductsWithAI [demoMProduct]
        (.assistedFailed fun _ => (1 / 2, 1 / 2, 1 / 2)),
      70 ≤ sp.aiScore ∧ sp.aiScore ≤ 100
      ∧ sp.trend = "Unknown" ∧ sp.competition = "Medium"
      ∧ sp.recommendation = "Manual analysis recommended") :=
  heuristic_fallback_correct [demoMProduct] (fun _ => (1 / 2, 1 / 2, 1 / 2))
    (fun _ => by norm_num)

/-! ### C8 lemmas: the assisted merge beyond position 10 -/

theorem mergeAssessments_drop (analysisArray : List Assessment) :
    ∀ (ps : List MProduct) (i k : ℕ),
      (mergeAssessments analysisArray ps i).drop k =
        mergeAssessments analysisArray (ps.drop k) (i + k) := by
  intro ps
  induction ps with
  | nil => intro i k; simp [mergeAssessments]
  | cons p ps ih =>
    intro i k
    cases k with
    | zero => simp
    | succ k =>
      rw [mergeAssessments]
      show (mergeAssessments analysisArray ps (i + 1)).drop k = _
      rw [ih (i + 1) k, List.drop_succ_cons]
      congr 1
      omega

theorem mergeAssessments_defaults (analysisArray : List Assessment)
    (h : ∀ a ∈ analysisArray, a.productIndex ≤ 10) :
    ∀ (ps : List MProduct) (i : ℕ), 10 ≤ i →
      ∀ sp ∈ mergeAssessments analysisArray ps i,
        sp.aiScore = 75 ∧ sp.trend = "Stable" ∧ sp.competition = "Medium"
        ∧ sp.recommendation = "Good potential for dropshipping" := by
  intro ps
  induction ps with
  | nil => intro i hi sp hsp; simp [mergeAssessments] at hsp
  | cons p ps ih =>
    intro i hi sp hsp
    rw [mergeAssessments] at hsp
    rcases List.mem_cons.mp hsp with hh | hh
    · subst hh
      have hfind : (analysisArray.find? fun a =>
          a.productIndex = (i : ℚ) + 1) = none := by
        rw [List.find?_eq_none]
        intro a ha
        have hle := h a ha
        have hcast : (10 : ℚ) ≤ (i : ℚ) := by exact_mod_cast hi
        simp only [decide_eq_true_eq]
        intro heq
        rw [heq] at hle
        linarith
      rw [mergeOne, hfind]
      exact ⟨rfl, rfl, rfl, rfl⟩
    · exact ih (i + 1) (by omega) sp hh

/-- An assessment whose position index exceeds 10, as the collaborator
could return. -/
def overflowAssessment : Assessment :=
  { productIndex := 11
    aiScore := some 90
    trend := some "Rising"
    competition := some "Low"
    recommendation := some "Scale it" }

/-- C8 counterexample: with an 11-product batch and a returned assessment
carrying position index 11, the merge matches product 11 (`find` is not
restricted to the first 10), so that product gets `aiScore 90`, not the
default 75. -/
theorem assisted_beyond_ten_cx :
    ¬ (∀ sp ∈ (analyzeProductsWithAI (List.replicate 11 demoMProduct)
        (.assisted [overflowAssessment])).drop 10,
      sp.aiScore = 75) := by
  intro h
  have hm : mergeOne [overflowAssessment] 10 demoMProduct ∈
      (analyzeProductsWithAI (List.replicate 11 demoMProduct)
        (.assisted [overflowAssessment])).drop 10 :=
    List.mem_singleton_self _
  have hb := h _ hm
  have hfind : ([overflowAssessment].find? fun a =>
      a.productIndex = ((10 : ℕ) : ℚ) + 1) = some overflowAssessment :=
    List.find?_cons_of_pos _ (by norm_num [overflowAssessment])
  rw [mergeOne, hfind] at hb
  norm_num [jsOrNum, overflowAssessment] at hb

/-- C8 (amended): provided every assessment returned by the collaborator
carries a position index of at most 10, every product at 1-based position
11 or beyond in the assisted path receives the defaulted values
`aiScore 75`, `trend Stable`, `competition Medium` and the generic
recommendation; an assessment whose index exceeds 10 would instead be
merged onto the matching later product. -/
theorem assisted_beyond_ten_defaults (ps : List MProduct)
    (analysisArray : List Assessment)
    (h : ∀ a ∈ analysisArray, a.productIndex ≤ 10) :
    ∀ sp ∈ (analyzeProductsWithAI ps (.assisted analysisArray)).drop 10,
      sp.aiScore = 75 ∧ sp.trend = "Stable" ∧ sp.competition = "Medium"
      ∧ sp.recommendation = "Good potential for dropshipping" := by
  rw [analyzeProductsWithAI, mergeAssessments_drop]
  exact mergeAssessments_defaults analysisArray h (ps.drop 10) (0 + 10)
    (by omega)

/-- C8 witness: an 11-product batch with a single in-range assessment
(position 1) leaves position 11 at the defaults. -/
theorem assisted_beyond_ten_defaults_witness :
    (mergeOne [okAssessment] 10 demoMProduct).aiScore = 75
    ∧ (mergeOne [okAssessment] 10 demoMProduct).trend = "Stable"
    ∧ (mergeOne [okAssessment] 10 demoMProduct).competition = "Medium"
    ∧ (mergeOne [okAssessment] 10 demoMProduct).recommendation =
        "Good potential for dropshipping" :=
  assisted_beyond_ten_defaults (List.replicate 11 demoMProduct)
    [okAssessment] (by
      intro a ha
      simp only [List.mem_singleton] at ha
      subst ha
      norm_num [okAssessment])
    (mergeOne [okAssessment] 10 demoMProduct) (List.mem_singleton_self _)

/-! ### C5: empty-result behaviour of the recommendations entry point -/

/-- A pooled product whose price `0` survives no filtering. -/
def zeroPriceProduct : Product :=
  { demoProduct with price := some 0 }

/-- A pooled product whose price `300` survives no filtering. -/
def bigPriceProduct : Product :=
  { demoProduct with price := some 300 }

/-- C5 counterexample: a non-empty pooled list all of whose products fail
the `0 < price < 200` filter (here a single product with price `0`) makes
the pipeline return `success: true` with an empty product list — the
`allProducts.length === 0` check runs before filtering, so the claimed
unsuccessful outcome is not produced. -/
theorem empty_result_cx :
    recommendations [zeroPriceProduct] (.noCollab fun _ => (0, 0, 0)) =
      .success [] [] 0 := by
  have hlen : ¬ ([zeroPriceProduct] : List Product).length = 0 := by simp
  have hvalid : validProducts [zeroPriceProduct] = [] := by rfl
  rw [recommendations, if_neg hlen]
  simp only [hvalid, List.map_nil]
  rfl

/-- C5 (amended): the pipeline returns the unsuccessful `"No products
found"` outcome exactly when the pooled normalized list itself is empty;
when the pooled list is non-empty but no product passes the
`0 < price < 200` filter, it instead returns a successful result with an
empty product list, an empty niche list and total `0`. -/
theorem empty_result_behaviour (pooled : List Product) (o : ScoreOutcome) :
    (pooled = [] → recommendations pooled o =
      .failure "No products found. Try again or check your API key.")
    ∧ (pooled ≠ [] → (∀ p ∈ pooled, priceInRange p.price = false) →
      recommendations pooled o = .success [] [] 0) := by
  constructor
  · rintro rfl
    rfl
  · intro hne hall
    have hfilter : (pooled.filter fun p => priceInRange p.price) = [] := by
      rw [List.filter_eq_nil_iff]
      intro p hp
      simp [hall p hp]
    have hvalid : validProducts pooled = [] := by
      rw [validProducts, hfilter]
      rfl
    have hlen : ¬ pooled.length = 0 := by
      simpa [List.length_eq_zero] using hne
    have hana : analyzeProductsWithAI ([] : List MProduct) o = [] := by
      cases o <;> rfl
    rw [recommendations, if_neg hlen]
    simp only [hvalid, List.map_nil, hana]
    rfl

/-- C5 witness: the amended behaviour at a concrete out-of-range pooled
list and at the empty pooled list. -/
theorem empty_result_behaviour_witness :
    recommendations [bigPriceProduct] (.assisted []) = .success [] [] 0 ∧
    recommendations [] (.assisted []) =
      .failure "No products found. Try again or check your API key." :=
  ⟨(empty_result_behaviour [bigPriceProduct] (.assisted [])).2
      (by simp)
      (by
        intro p hp
        simp only [List.mem_singleton] at hp
        subst hp
        rfl),
    (empty_result_behaviour [] (.assisted [])).1 rfl⟩

/-! ### C9 lemmas: the niche accumulation -/

/-- Number of scored products in category `c`. -/
def catCount (ps : List ScoredProduct) (c : String) : ℕ :=
  (ps.filter fun p => p.category = c).length

/-- Sum of `aiScore` over the scored products in category `c`. -/
def catScore (ps : List ScoredProduct) (c : String) : ℚ :=
  ((ps.filter fun p => p.category = c).map ScoredProduct.aiScore).sum

/-- Sum of `sold` over the scored products in category `c`. -/
def catSales (ps : List ScoredProduct) (c : String) : ℤ :=
  ((ps.filter fun p => p.category = c).map fun p => p.sold).sum

/-- The accumulator entry for category `c`, if any. -/
def accEntry (accs : List NicheAcc) (c : String) : Option NicheAcc :=
  accs.find? fun n => n.category = c

def accCount (accs : List NicheAcc) (c : String) : ℕ :=
  ((accEntry accs c).map NicheAcc.count).getD 0

def accScore (accs : List NicheAcc) (c : String) : ℚ :=
  ((accEntry accs c).map NicheAcc.scoreSum).getD 0

def accSales (accs : List NicheAcc) (c : String) : ℤ :=
  ((accEntry accs c).map NicheAcc.totalSales).getD 0

theorem bumpAcc_category (p : ScoredProduct) (n : NicheAcc) :
    (bumpAcc p n).category = n.category := by
  rw [bumpAcc]; split <;> rfl

theorem accEntry_map_bumpAcc (l : List NicheAcc) (p : ScoredProduct)
    (c : String) :
    accEntry (l.map (bumpAcc p)) c = (accEntry l c).map (bumpAcc p) := by
  rw [accEntry, List.find?_map, accEntry]
  have hfun : ((fun n : NicheAcc => decide (n.category = c)) ∘ bumpAcc p)
      = fun n : NicheAcc => decide (n.category = c) := by
    funext n
    simp [Function.comp, bumpAcc_category]
  rw [hfun]

theorem accEntry_map_bumpAcc_other (accs : List NicheAcc)
    (p : ScoredProduct) (c : String) (hc : c ≠ p.category) :
    (accEntry accs c).map (bumpAcc p) = accEntry accs c := by
  cases hfc : accEntry accs c with
  | none => rfl
  | some m =>
    have hmc : m.category = c := by simpa using List.find?_some hfc
    show some (bumpAcc p m) = some m
    rw [bumpAcc, if_neg (show ¬ m.category = p.category by rw [hmc]; exact hc)]

/-- The key step lemma: how one `forEach` iteration transforms the entry
for category `c`. -/
theorem accEntry_bumpNiche (accs : List NicheAcc) (p : ScoredProduct)
    (c : String) :
    accEntry (bumpNiche accs p) c =
      if c = p.category then
        some (bumpAcc p ((accEntry accs c).getD (emptyNicheFor p.category)))
      else accEntry accs c := by
  rw [bumpNiche, accEntry_map_bumpAcc]
  cases hfind : accEntry accs p.category with
  | some n =>
    have hfind' : (accs.find? fun m => m.category = p.category) = some n :=
      hfind
    have hany : (accs.any fun m => m.category = p.category) = true := by
      rw [List.any_eq_true]
      exact ⟨n, List.mem_of_find?_eq_some hfind',
        by simpa using List.find?_some hfind'⟩
    rw [ensureNiche, if_pos hany]
    by_cases hc : c = p.category
    · subst hc
      rw [if_pos rfl, hfind]
      rfl
    · rw [if_neg hc]
      exact accEntry_map_bumpAcc_other accs p c hc
  | none =>
    have hfind' : (accs.find? fun m => m.category = p.category) = none :=
      hfind
    have hany : ¬ (accs.any fun m => m.category = p.category) = true := by
      rw [List.any_eq_true]
      rintro ⟨m, hm, hpm⟩
      exact absurd hpm (by simpa using List.find?_eq_none.mp hfind' m hm)
    rw [ensureNiche, if_neg hany]
    by_cases hc : c = p.category
    · subst hc
      rw [if_pos rfl, hfind]
      rw [accEntry, List.find?_append, hfind']
      simp [List.find?, emptyNicheFor]
    · rw [if_neg hc]
      rw [accEntry, List.find?_append]
      have hnew : (([emptyNicheFor p.category] : List NicheAcc).find?
            fun n => n.category = c) = none := by
        rw [List.find?_eq_none]
        intro a ha
        simp only [List.mem_singleton] at ha
        subst ha
        simp [emptyNicheFor, Ne.symm hc]
      rw [hnew]
      show ((accs.find? fun n => n.category = c).or none).map (bumpAcc p) = _
      rw [Option.or_none]
      exact accEntry_map_bumpAcc_other accs p c hc

theorem accCount_bumpNiche (accs : List NicheAcc) (p : ScoredProduct)
    (c : String) :
    accCount (bumpNiche accs p) c =
      accCount accs c + (if c = p.category then 1 else 0) := by
  by_cases hc : c = p.category
  · subst hc
    rw [accCount, accEntry_bumpNiche, if_pos rfl, if_pos rfl]
    cases hfc : accEntry accs p.category with
    | none => simp [accCount, hfc, bumpAcc, emptyNicheFor]
    | some m =>
      have hfc' : (accs.find? fun n => n.category = p.category) = some m :=
        hfc
      have hmc : m.category = p.category := by
        simpa using List.find?_some hfc'
      simp [accCount, hfc, bumpAcc, hmc]
  · rw [accCount, accEntry_bumpNiche, if_neg hc, if_neg hc, accCount]
    omega

theorem accScore_bumpNiche (accs : List NicheAcc) (p : ScoredProduct)
    (c : String) :
    accScore (bumpNiche accs p) c =
      accScore accs c + (if c = p.category then p.aiScore else 0) := by
  by_cases hc : c = p.category
  · subst hc
    rw [accScore, accEntry_bumpNiche, if_pos rfl, if_pos rfl]
    cases hfc : accEntry accs p.category with
    | none => simp [accScore, hfc, bumpAcc, emptyNicheFor]
    | some m =>
      have hfc' : (accs.find? fun n => n.category = p.category) = some m :=
        hfc
      have hmc : m.category = p.category := by
        simpa using List.find?_some hfc'
      simp [accScore, hfc, bumpAcc, hmc]
  · rw [accScore, accEntry_bumpNiche, if_neg hc, if_neg hc, accScore]
    ring

theorem sold_or_zero (p : ScoredProduct) :
    (if p.sold = 0 then (0 : ℤ) else p.sold) = p.sold := by
  split <;> simp_all

theorem accSales_bumpNiche (accs : List NicheAcc) (p : ScoredProduct)
    (c : String) :
    accSales (bumpNiche accs p) c =
      accSales accs c + (if c = p.category then p.sold else 0) := by
  by_cases hc : c = p.category
  · subst hc
    rw [accSales, accEntry_bumpNiche, if_pos rfl, if_pos rfl]
    cases hfc : accEntry accs p.category with
    | none => simp [accSales, hfc, bumpAcc, emptyNicheFor, sold_or_zero]
    | some m =>
      have hfc' : (accs.find? fun n => n.category = p.category) = some m :=
        hfc
      have hmc : m.category = p.category := by
        simpa using List.find?_some hfc'
      simp [accSales, hfc, bumpAcc, hmc, sold_or_zero]
  · rw [accSales, accEntry_bumpNiche, if_neg hc, if_neg hc, accSales]
    ring

theorem bumpNiche_map_category (accs : List NicheAcc) (p : ScoredProduct) :
    (bumpNiche accs p).map NicheAcc.category =
      if (accs.any fun n => n.category = p.category) = true
      then accs.map NicheAcc.category
      else accs.map NicheAcc.category ++ [p.category] := by
  rw [bumpNiche, List.map_map,
    show NicheAcc.category ∘ bumpAcc p = NicheAcc.category from
      funext fun n => bumpAcc_category p n]
  rw [ensureNiche]
  split <;> simp [emptyNicheFor]

theorem mem_map_category_bumpNiche (accs : List NicheAcc)
    (p : ScoredProduct) (c : String) :
    c ∈ (bumpNiche accs p).map NicheAcc.category ↔
      c ∈ accs.map NicheAcc.category ∨ c = p.category := by
  rw [bumpNiche_map_category]
  split
  · rename_i h
    constructor
    · exact Or.inl
    · rintro (hm | rfl)
      · exact hm
      · obtain ⟨n, hn, hcat⟩ := List.any_eq_true.mp h
        exact List.mem_map.mpr ⟨n, hn, by simpa using hcat⟩
  · simp

theorem nodup_map_category_bumpNiche (accs : List NicheAcc)
    (p : ScoredProduct) (h : (accs.map NicheAcc.category).Nodup) :
    ((bumpNiche accs p).map NicheAcc.category).Nodup := by
  rw [bumpNiche_map_category]
  split
  · exact h
  · rename_i h2
    have hnotin : p.category ∉ accs.map NicheAcc.category := by
      intro hmem
      obtain ⟨n, hn, hcat⟩ := List.mem_map.mp hmem
      exact h2 (List.any_eq_true.mpr ⟨n, hn, by simpa using hcat⟩)
    simp [List.nodup_append, h, hnotin]

theorem accEntry_self (accs : List NicheAcc) :
    (accs.map NicheAcc.category).Nodup → ∀ n ∈ accs,
      accEntry accs n.category = some n := by
  induction accs with
  | nil => intro _ n hn; simp at hn
  | cons m accs ih =>
    intro hnd n hn
    rw [List.map_cons, List.nodup_cons] at hnd
    rw [accEntry]
    rcases List.mem_cons.mp hn with rfl | hmem
    · rw [List.find?_cons_of_pos _ (by simp)]
    · have hne : ¬ m.category = n.category := by
        intro he
        apply hnd.1
        rw [he]
        exact List.mem_map.mpr ⟨n, hmem, rfl⟩
      rw [List.find?_cons_of_neg _ (by simpa using hne)]
      exact ih hnd.2 n hmem

theorem length_filter_category_eq_zero (accs : List NicheAcc) (c : String)
    (h : c ∉ accs.map NicheAcc.category) :
    (accs.filter fun n => n.category = c).length = 0 := by
  rw [List.length_eq_zero, List.filter_eq_nil_iff]
  intro n hn
  simp only [decide_eq_true_eq]
  intro he
  exact h (List.mem_map.mpr ⟨n, hn, he⟩)

theorem length_filter_category_eq_one (accs : List NicheAcc) (c : String) :
    (accs.map NicheAcc.category).Nodup → c ∈ accs.map NicheAcc.category →
    (accs.filter fun n => n.category = c).length = 1 := by
  induction accs with
  | nil => intro _ h; simp at h
  | cons m accs ih =>
    intro hnd hmem
    rw [List.map_cons, List.nodup_cons] at hnd
    rw [List.map_cons, List.mem_cons] at hmem
    rw [List.filter_cons]
    rcases hmem with rfl | hmem
    · rw [if_pos (by simp)]
      rw [List.length_cons, length_filter_category_eq_zero accs _ hnd.1]
    · have hne : ¬ m.category = c := by
        intro he
        rw [he] at hnd
        exact hnd.1 hmem
      rw [if_neg (by simpa using hne)]
      exact ih hnd.2 hmem

theorem sum_count_map_bumpAcc (l : List NicheAcc) (p : ScoredProduct) :
    ((l.map (bumpAcc p)).map NicheAcc.count).sum =
      (l.map NicheAcc.count).sum +
        (l.filter fun n => n.category = p.category).length := by
  induction l with
  | nil => rfl
  | cons m l ih =>
    rw [List.map_cons, List.map_cons, List.sum_cons, ih, List.map_cons,
      List.sum_cons, List.filter_cons]
    by_cases hm : m.category = p.category
    · rw [if_pos (by simpa using hm), bumpAcc, if_pos hm, List.length_cons]
      show m.count + 1 + _ = _
      omega
    · rw [if_neg (by simpa using hm), bumpAcc, if_neg hm]
      omega

theorem sum_count_bumpNiche (accs : List NicheAcc) (p : ScoredProduct)
    (hnd : (accs.map NicheAcc.category).Nodup) :
    ((bumpNiche accs p).map NicheAcc.count).sum =
      (accs.map NicheAcc.count).sum + 1 := by
  rw [bumpNiche, sum_count_map_bumpAcc, ensureNiche]
  split
  · rename_i h
    obtain ⟨n, hn, hcat⟩ := List.any_eq_true.mp h
    rw [length_filter_category_eq_one accs p.category hnd
      (List.mem_map.mpr ⟨n, hn, by simpa using hcat⟩)]
  · rename_i h
    have hnotin : p.category ∉ accs.map NicheAcc.category := by
      intro hmem
      obtain ⟨n, hn, hcat⟩ := List.mem_map.mp hmem
      exact h (List.any_eq_true.mpr ⟨n, hn, by simpa using hcat⟩)
    rw [List.filter_append, List.map_append, List.sum_append,
      List.length_append, length_filter_category_eq_zero accs _ hnotin]
    simp [emptyNicheFor, List.filter_cons]

theorem catCount_cons (p : ScoredProduct) (ps : List ScoredProduct)
    (c : String) :
    catCount (p :: ps) c =
      (if p.category = c then 1 else 0) + catCount ps c := by
  rw [catCount, List.filter_cons]
  by_cases h : p.category = c
  · rw [if_pos (by simpa using h), if_pos h, List.length_cons, catCount]
    omega
  · rw [if_neg (by simpa using h), if_neg h, catCount]
    omega

theorem catScore_cons (p : ScoredProduct) (ps : List ScoredProduct)
    (c : String) :
    catScore (p :: ps) c =
      (if p.category = c then p.aiScore else 0) + catScore ps c := by
  rw [catScore, List.filter_cons]
  by_cases h : p.category = c
  · rw [if_pos (by simpa using h), if_pos h, List.map_cons, List.sum_cons,
      catScore]
  · rw [if_neg (by simpa using h), if_neg h, catScore]
    ring

theorem catSales_cons (p : ScoredProduct) (ps : List ScoredProduct)
    (c : String) :
    catSales (p :: ps) c =
      (if p.category = c then p.sold else 0) + catSales ps c := by
  rw [catSales, List.filter_cons]
  by_cases h : p.category = c
  · rw [if_pos (by simpa using h), if_pos h, List.map_cons, List.sum_cons,
      catSales]
  · rw [if_neg (by simpa using h), if_neg h, catSales]
    ring

/-- The master invariant of the `forEach` accumulation, generalized over
the starting accumulator. -/
theorem nichesOf_go (ps : List ScoredProduct) :
    ∀ accs : List NicheAcc, (accs.map NicheAcc.category).Nodup →
    (((ps.foldl bumpNiche accs).map NicheAcc.category).Nodup
    ∧ (∀ c, c ∈ (ps.foldl bumpNiche accs).map NicheAcc.category ↔
        c ∈ accs.map NicheAcc.category ∨ c ∈ ps.map fun p => p.category)
    ∧ (∀ n ∈ ps.foldl bumpNiche accs,
        n.count = accCount accs n.category + catCount ps n.category
        ∧ n.scoreSum = accScore accs n.category + catScore ps n.category
        ∧ n.totalSales = accSales accs n.category + catSales ps n.category)
    ∧ ((ps.foldl bumpNiche accs).map NicheAcc.count).sum =
        (accs.map NicheAcc.count).sum + ps.length) := by
  induction ps with
  | nil =>
    intro accs hnd
    refine ⟨hnd, by simp, ?_, by simp⟩
    intro n hn
    have he := accEntry_self accs hnd n hn
    refine ⟨?_, ?_, ?_⟩ <;>
      simp [accCount, accScore, accSales, catCount, catScore, catSales, he]
  | cons p ps ih =>
    intro accs hnd
    have hnd' := nodup_map_category_bumpNiche accs p hnd
    obtain ⟨ih1, ih2, ih3, ih4⟩ := ih (bumpNiche accs p) hnd'
    rw [List.foldl_cons]
    refine ⟨ih1, ?_, ?_, ?_⟩
    · intro c
      rw [ih2 c, mem_map_category_bumpNiche, List.map_cons, List.mem_cons]
      tauto
    · intro n hn
      obtain ⟨h1, h2, h3⟩ := ih3 n hn
      refine ⟨?_, ?_, ?_⟩
      · rw [h1, accCount_bumpNiche, catCount_cons]
        by_cases hc : n.category = p.category
        · rw [if_pos hc, if_pos (by rw [hc])]
          omega
        · rw [if_neg hc, if_neg (fun he => hc he.symm)]
          omega
      · rw [h2, accScore_bumpNiche, catScore_cons]
        by_cases hc : n.category = p.category
        · rw [if_pos hc, if_pos (by rw [hc])]
          ring
        · rw [if_neg hc, if_neg (fun he => hc he.symm)]
          ring
      · rw [h3, accSales_bumpNiche, catSales_cons]
        by_cases hc : n.category = p.category
        · rw [if_pos hc, if_pos (by rw [hc])]
          ring
        · rw [if_neg hc, if_neg (fun he => hc he.symm)]
          ring
    · rw [ih4, sum_count_bumpNiche accs p hnd, List.length_cons]
      omega

/-- The accumulated niche object at the empty starting accumulator. -/
theorem nichesOf_correct (ps : List ScoredProduct) :
    ((nichesOf ps).map NicheAcc.category).Nodup
    ∧ (∀ c, c ∈ (nichesOf ps).map NicheAcc.category ↔
        c ∈ ps.map fun p => p.category)
    ∧ (∀ n ∈ nichesOf ps,
        n.count = catCount ps n.category
        ∧ n.scoreSum = catScore ps n.category
        ∧ n.totalSales = catSales ps n.category)
    ∧ ((nichesOf ps).map NicheAcc.count).sum = ps.length := by
  obtain ⟨h1, h2, h3, h4⟩ := nichesOf_go ps [] (by simp)
  refine ⟨h1, ?_, ?_, by simpa using h4⟩
  · intro c
    rw [nichesOf, h2 c]
    simp
  · intro n hn
    obtain ⟨ha, hb, hc⟩ := h3 n hn
    refine ⟨?_, ?_, ?_⟩
    · rw [ha]
      simp [accCount, accEntry]
    · rw [hb]
      simp [accScore, accEntry]
    · rw [hc]
      simp [accSales, accEntry]

theorem finalizeNiche_category (n : NicheAcc) :
    (finalizeNiche n).category = n.category := rfl

theorem trendingNiches_map_category_perm (ps : List ScoredProduct) :
    List.Perm ((trendingNiches ps).map Niche.category)
      ((nichesOf ps).map NicheAcc.category) := by
  have h := (sortByDesc_perm Niche.avgScore
    ((nichesOf ps).map finalizeNiche)).map Niche.category
  rw [trendingNiches]
  refine h.trans ?_
  rw [List.map_map]
  exact List.Perm.refl _

theorem trendingNiches_map_count_perm (ps : List ScoredProduct) :
    List.Perm ((trendingNiches ps).map Niche.count)
      ((nichesOf ps).map NicheAcc.count) := by
  have h := (sortByDesc_perm Niche.avgScore
    ((nichesOf ps).map finalizeNiche)).map Niche.count
  rw [trendingNiches]
  refine h.trans ?_
  rw [List.map_map]
  exact List.Perm.refl _

/-- C9: the Niche Aggregator emits exactly one summary per distinct
category of the scored list (no duplicates, and exactly the categories
present); the counts sum to the total number of scored products; each
niche's `count`, `avgScore` and `totalSales` are the member count, the
rounded mean of the members' `aiScore`, and the members' total `sold`;
and the emitted list is sorted descending by `avgScore`. -/
theorem niche_aggregator_correct (ps : List ScoredProduct) :
    ((trendingNiches ps).map Niche.category).Nodup
    ∧ (∀ c, c ∈ (trendingNiches ps).map Niche.category ↔
        c ∈ ps.map fun p => p.category)
    ∧ ((trendingNiches ps).map Niche.count).sum = ps.length
    ∧ (∀ n ∈ trendingNiches ps,
        0 < n.count
        ∧ n.count = catCount ps n.category
        ∧ n.avgScore =
            round (catScore ps n.category / (catCount ps n.category : ℚ))
        ∧ n.totalSales = catSales ps n.category)
    ∧ List.Pairwise (fun a b => b.avgScore ≤ a.avgScore)
        (trendingNiches ps) := by
  obtain ⟨h1, h2, h3, h4⟩ := nichesOf_correct ps
  refine ⟨?_, ?_, ?_, ?_, ?_⟩
  · exact ((trendingNiches_map_category_perm ps).nodup_iff).mpr h1
  · intro c
    rw [(trendingNiches_map_category_perm ps).mem_iff]
    exact h2 c
  · rw [(trendingNiches_map_count_perm ps).sum_eq]
    exact h4
  · intro n hn
    have hn2 : n ∈ (nichesOf ps).map finalizeNiche :=
      (sortByDesc_perm Niche.avgScore _).mem_iff.mp hn
    obtain ⟨m, hm, rfl⟩ := List.mem_map.mp hn2
    obtain ⟨ha, hb, hc⟩ := h3 m hm
    have hcatmem : m.category ∈ ps.map fun p => p.category := by
      rw [← h2 m.category]
      exact List.mem_map.mpr ⟨m, hm, rfl⟩
    have hpos : 0 < catCount ps m.category := by
      obtain ⟨p, hp, hpc⟩ := List.mem_map.mp hcatmem
      rw [catCount, List.length_pos]
      exact List.ne_nil_of_mem (List.mem_filter.mpr ⟨hp, by simpa using hpc⟩)
    refine ⟨?_, ?_, ?_, ?_⟩
    · show 0 < m.count
      rw [ha]
      exact hpos
    · show m.count = catCount ps m.category
      exact ha
    · show round (m.scoreSum / (m.count : ℚ)) =
        round (catScore ps m.category / (catCount ps m.category : ℚ))
      rw [ha, hb]
    · show m.totalSales = catSales ps m.category
      exact hc
  · exact sortByDesc_sorted Niche.avgScore _

/-- C9 witness: the aggregator contract instantiated on a concrete
two-product scored list. -/
theorem niche_aggregator_correct_witness :
    (((trendingNiches [failedScoredDemo, failedScoredDemo]).map
        Niche.category).Nodup
    ∧ (∀ c, c ∈ (trendingNiches [failedScoredDemo, failedScoredDemo]).map
          Niche.category ↔
        c ∈ ([failedScoredDemo, failedScoredDemo].map fun p => p.category))
    ∧ ((trendingNiches [failedScoredDemo, failedScoredDemo]).map
        Niche.count).sum = ([failedScoredDemo, failedScoredDemo] :
          List ScoredProduct).length
    ∧ (∀ n ∈ trendingNiches [failedScoredDemo, failedScoredDemo],
        0 < n.count
        ∧ n.count = catCount [failedScoredDemo, failedScoredDemo] n.category
        ∧ n.avgScore = round
            (catScore [failedScoredDemo, failedScoredDemo] n.category /
              (catCount [failedScoredDemo, failedScoredDemo] n.category : ℚ))
        ∧ n.totalSales =
            catSales [failedScoredDemo, failedScoredDemo] n.category)
    ∧ List.Pairwise (fun a b => b.avgScore ≤ a.avgScore)
        (trendingNiches [failedScoredDemo, failedScoredDemo])) :=
  niche_aggregator_correct [failedScoredDemo, failedScoredDemo]

end ProductTrends
